import Mathlib

/-!
# Verification of the auction-dynamics simulation (`src/model.cpp`)

Shallow embedding of the SIMLIB-based auction simulation.  The source is a
single-threaded cooperative discrete-event program; we embed

* the shared mutable globals (`currentPrice`, `firstBidPlaced`, `lastBidder`,
  the three decision queues, the bidding facility, the statistics) as fields
  of an explicit state record `Sys`;
* each straight-line section of process code that runs between two suspension
  points as a pure state-transformer (cooperative scheduling makes such a
  section atomic);
* the SIMLIB calendar as an explicit list of scheduled entries ordered by
  (time, priority, insertion serial), and a run as a step relation that always
  fires a minimal entry;
* C++ `double` arithmetic as exact rational arithmetic (`ℚ`);
* the stochastic draws (`Random`, `Exponential`, `Normal`) as values consumed
  from an explicit tape, so that a run is a function of the seed-determined
  tape and the parameters.
-/

namespace Auction

/-- The compile-time flag `#define LOGGING false` of `model.cpp`: per-bid CSV
logging is disabled in the source. -/
def LOGGING : Bool := false

/-- The compile-time flag `#define LOG_STRATEGIES false` of `model.cpp`. -/
def LOG_STRATEGIES : Bool := false

/-- The three bidder strategies of the `BidderType` enum (the `NONE = -1`
member is represented by the integer code `-1`, see `stratCode`). -/
inductive Strategy : Type
  | AGENT
  | RATCHET
  | SNIPER
deriving DecidableEq, Repr

/-- Integer code of a strategy, as in the C++ `BidderType` enum
(`AGENT = 0, RATCHET = 1, SNIPER = 2`). -/
def stratCode : Strategy → Int
  | .AGENT => 0
  | .RATCHET => 1
  | .SNIPER => 2

/-- The `NONE = -1` member of the `BidderType` enum. -/
def NONEcode : Int := -1

/-- The `winnerStats[4]` array (indices: 0 = None, 1 = Agent, 2 = Ratchet,
3 = Sniper, since the source indexes it by `lastBidder + 1`). -/
structure WStats : Type where
  noneW : ℕ
  agentW : ℕ
  ratchetW : ℕ
  sniperW : ℕ
deriving DecidableEq, Repr

/-- `winnerStats[idx]++` with `idx = lastBidder + 1` (out-of-range indices,
impossible in the program, leave the array unchanged). -/
def WStats.bump (idx : Int) (w : WStats) : WStats :=
  if idx = 0 then { w with noneW := w.noneW + 1 }
  else if idx = 1 then { w with agentW := w.agentW + 1 }
  else if idx = 2 then { w with ratchetW := w.ratchetW + 1 }
  else if idx = 3 then { w with sniperW := w.sniperW + 1 }
  else w

/-- Sum of the four per-strategy counters. -/
def WStats.total (w : WStats) : ℕ := w.noneW + w.agentW + w.ratchetW + w.sniperW

/-- Simulation parameters (`NUMBER_OF_ITEMS`, `NUMBER_OF_BIDDERS`,
`SINGLE_ITEM_DURATION`, `AUCTION_ITEM_TIMEOUT`). -/
structure Params : Type where
  numberOfItems : Int
  numberOfBidders : Int
  singleItemDuration : Int
  auctionItemTimeout : ℚ
deriving DecidableEq, Repr

/-- Kind of a scheduled resumption/event on the SIMLIB calendar.

* `auctionResume`: the `Auction` process resuming at the top of its loop
  (its initial activation or the return of `Wait(SINGLE_ITEM_DURATION + 30)`);
* `itemOpen`: the activation of a freshly constructed `AuctionItem`
  (its `Behavior` prefix up to `Wait(SINGLE_ITEM_DURATION)`);
* `pollTick s`: one loop iteration of the `AgentBids` / `RatchetBids` /
  `SniperBids` poller, i.e. the code resumed by the return of its `Wait(0.1)`;
* `timeoutFire`: the `FirstBidTimeout` event firing;
* `itemClose`: the `AuctionItem` resuming after `Wait(SINGLE_ITEM_DURATION)`;
* `bidderDecide s pid`: a generated bidder of strategy `s` reaching its
  `Insert(this); Passivate();` decision point (the bidders' stochastic
  patience loops are the randomness source; the decision instants are drawn
  from the tape at item open). -/
inductive EventKind : Type
  | auctionResume
  | itemOpen
  | pollTick (strat : Strategy)
  | timeoutFire
  | itemClose
  | bidderDecide (strat : Strategy) (pid : ℕ)
deriving DecidableEq, Repr

/-- A calendar entry: the scheduled activation time, the SIMLIB `Priority` of
the scheduled process (higher priority is served first at equal time), a
serial number recording insertion order (SIMLIB breaks remaining ties FIFO),
and the event to run. -/
structure CalEntry : Type where
  time : ℚ
  prio : Int
  serial : ℕ
  ev : EventKind
deriving DecidableEq, Repr

/-- The whole simulation state: the globals of `model.cpp`, the calendar and
the random tape. -/
structure Sys : Type where
  params : Params
  /-- simulated `Time` -/
  time : ℚ
  /-- global `ItemEndTime` -/
  itemEndTime : ℚ
  /-- global `itemNumber` -/
  itemNumber : Int
  /-- global `currentPrice` -/
  currentPrice : ℚ
  /-- global `firstBidPlaced` -/
  firstBidPlaced : Bool
  /-- global `lastBidder` (−1 = NONE) -/
  lastBidder : Int
  /-- `AgentDecidedToBid` queue (bidder process ids, front first) -/
  agentQueue : List ℕ
  /-- `RatchetDecidedToBid` queue -/
  ratchetQueue : List ℕ
  /-- `SniperDecidedToBid` queue -/
  sniperQueue : List ℕ
  /-- `biddingFacility`: `none` = free, `some s` = held by the poller of
  strategy `s` (the pollers are the only processes that seize it) -/
  facility : Option Strategy
  /-- the CSV sink written by `logSingleBid`: records `(itemNumber,
  itemTime, bidAmount)` -/
  bidLog : List (Int × ℚ × ℚ)
  /-- the `winners` histogram: the sequence of recorded values
  (−1 = None, 0 = Agent, 1 = Ratchet, 2 = Sniper) -/
  winnersHist : List Int
  /-- the `winnerStats[4]` array -/
  winnerStats : WStats
  /-- whether the current `AuctionItem` process has been `Cancel()`ed by the
  first-bid timeout -/
  itemCancelled : Bool
  /-- trace of `Activate()` calls performed on queued bidders by
  `returnFromQueues` (in call order) -/
  activated : List ℕ
  /-- the SIMLIB calendar -/
  cal : List CalEntry
  /-- fresh serial counter for calendar insertion order -/
  nextSerial : ℕ
  /-- the random tape (seed-determined stream of draws) -/
  tape : List ℚ
deriving DecidableEq, Repr

/-- `minimalIncrement()` of `model.cpp`: `currentPrice * 0.01`. -/
def minimalIncrementQ (p : ℚ) : ℚ := p * (1 / 100)

/-- One committed price increase: `currentPrice += minimalIncrement()`. -/
def commitQ (p : ℚ) : ℚ := p + minimalIncrementQ p

/-- The decision queue of a strategy. -/
def queueOf : Strategy → Sys → List ℕ
  | .AGENT, s => s.agentQueue
  | .RATCHET, s => s.ratchetQueue
  | .SNIPER, s => s.sniperQueue

/-- `returnFromQueues()` of `model.cpp`: repeatedly `GetFirst()->Activate()`
until each of the three queues is empty — first the agent queue, then the
ratchet queue, then the sniper queue.  Every bidder queued anywhere is
removed from its queue and activated once, in queue order. -/
def returnFromQueues (s : Sys) : Sys :=
  { s with
    agentQueue := []
    ratchetQueue := []
    sniperQueue := []
    activated := s.activated ++ s.agentQueue ++ s.ratchetQueue ++ s.sniperQueue }

/-- `Seize(biddingFacility)` — only ever executed under the
`!biddingFacility.Busy()` guard, on a free facility. -/
def seizeF (strat : Strategy) (s : Sys) : Sys := { s with facility := some strat }

/-- `Release(biddingFacility)`. -/
def releaseF (s : Sys) : Sys := { s with facility := none }

/-- `firstBidPlaced = true; currentPrice += minimalIncrement();`. -/
def commitPrice (s : Sys) : Sys :=
  { s with firstBidPlaced := true, currentPrice := commitQ s.currentPrice }

/-- `if (LOGGING) logSingleBid(currentPrice);` — `logSingleBid` appends the
record `(itemNumber, SINGLE_ITEM_DURATION - (ItemEndTime - Time),
currentPrice)` to the CSV sink.  Since `LOGGING` is `false` in the source the
sink is never written. -/
def logBid (s : Sys) : Sys :=
  if LOGGING then
    { s with bidLog := s.bidLog ++
        [(s.itemNumber, (s.params.singleItemDuration : ℚ) - (s.itemEndTime - s.time),
          s.currentPrice)] }
  else s

/-- `lastBidder = <strategy>;`. -/
def setLastBidder (strat : Strategy) (s : Sys) : Sys :=
  { s with lastBidder := stratCode strat }

/-- The committing poller's `printf`.  The agent and ratchet pollers print
only `Time` and `currentPrice`, touching no state.  The sniper poller's
`printf` (source line 478) evaluates `SniperDecidedToBid.GetFirst()->id()`,
and SIMLIB's `GetFirst()` is destructive: it removes the head sniper from
the queue — without activating it, so that bidder stays passivated
forever. -/
def printBid (strat : Strategy) (s : Sys) : Sys :=
  match strat with
  | .SNIPER => { s with sniperQueue := s.sniperQueue.tail }
  | _ => s

/-- The critical section of a poller tick, in source order:
`Seize; firstBidPlaced = true; currentPrice += minimalIncrement();
if (LOGGING) logSingleBid(...); printf(...); lastBidder = strat;
returnFromQueues(); Release;` — where the sniper poller's `printf` pops the
head of the sniper queue (see `printBid`). -/
def commitBlock (strat : Strategy) (s : Sys) : Sys :=
  releaseF (returnFromQueues (setLastBidder strat (printBid strat (logBid
    (commitPrice (seizeF strat s))))))

/-- The successive machine states inside a committing tick's critical
section: after `Seize`, after the price commit, after the (disabled) log,
after the `printf` (which pops the sniper-queue head when the committing
poller is the sniper one), after `lastBidder = strat`, after
`returnFromQueues`, after `Release`. -/
def tickStages (strat : Strategy) (s : Sys) : List Sys :=
  let s1 := seizeF strat s
  let s2 := commitPrice s1
  let s3 := logBid s2
  let s4 := printBid strat s3
  let s5 := setLastBidder strat s4
  let s6 := returnFromQueues s5
  let s7 := releaseF s6
  [s1, s2, s3, s4, s5, s6, s7]

/-- One loop iteration of an `AgentBids` / `RatchetBids` / `SniperBids`
poller, resumed at the return of its `Wait(0.1)`:

* `if (Time >= ItemEndTime) Passivate();` — at or past the item end, the
  poller passivates and does nothing;
* `if (!queue.Empty()) if (!biddingFacility.Busy()) { ... }` — otherwise it
  commits exactly one bid when its own queue is non-empty and the facility is
  free, and does nothing otherwise. -/
def pollerTick (strat : Strategy) (s : Sys) : Sys :=
  if s.itemEndTime ≤ s.time then s
  else if queueOf strat s ≠ [] ∧ s.facility = none then commitBlock strat s
  else s

/-! ## The calendar semantics -/

/-- Draw the next value from the random tape (`0` if exhausted; a run of the
program never exhausts its stream). -/
def popDraw (s : Sys) : ℚ × Sys := (s.tape.headD 0, { s with tape := s.tape.tail })

/-- Put a new entry on the calendar with a fresh insertion serial
(SIMLIB activation: `Activate(t)` / the end of a `Wait`). -/
def schedule (t : ℚ) (prio : Int) (ev : EventKind) (s : Sys) : Sys :=
  { s with cal := s.cal ++ [⟨t, prio, s.nextSerial, ev⟩], nextSerial := s.nextSerial + 1 }

/-- Remove the first occurrence of an entry from the calendar. -/
def removeEntry (e : CalEntry) : List CalEntry → List CalEntry
  | [] => []
  | f :: rest => if f = e then rest else f :: removeEntry e rest

/-- `Queue::Insert(this)` followed by `Passivate()` in a bidder's behavior:
the bidder appends itself to its strategy's decision queue. -/
def enqueueBidder (strat : Strategy) (pid : ℕ) (s : Sys) : Sys :=
  match strat with
  | .AGENT => { s with agentQueue := s.agentQueue ++ [pid] }
  | .RATCHET => { s with ratchetQueue := s.ratchetQueue ++ [pid] }
  | .SNIPER => { s with sniperQueue := s.sniperQueue ++ [pid] }

/-- `winners(lastBidder); winnerStats[lastBidder + 1]++;` — the sold branch of
`AuctionItem::Behavior`. -/
def recordSold (s : Sys) : Sys :=
  { s with winnersHist := s.winnersHist ++ [s.lastBidder],
           winnerStats := s.winnerStats.bump (s.lastBidder + 1) }

/-- `winners(NONE);` — the discard branch of `FirstBidTimeout::Behavior`
(note: the `winnerStats` array is NOT touched on this path). -/
def recordNone (s : Sys) : Sys :=
  { s with winnersHist := s.winnersHist ++ [NONEcode] }

/-- `FirstBidTimeout::Behavior`: if no bid has been placed, print, `Cancel()`
the auction-item process (removing its pending resumption from the calendar —
and nothing else: the three pollers, the generator and the bidders are NOT
cancelled), and record a `None` win in the `winners` histogram.  Finally the
event cancels itself (it simply ends). -/
def fireTimeout (s : Sys) : Sys :=
  if s.firstBidPlaced then s
  else
    { recordNone s with
        itemCancelled := true
        cal := s.cal.filter (fun e => match e.ev with
          | .itemClose => false
          | _ => true) }

/-- `AuctionItem::Behavior` resuming after `Wait(SINGLE_ITEM_DURATION)`:
record the winner if a bid was placed (sold), else only print; then
`Terminate()` the three poller processes and `delete` the first-bid timeout
(removing their pending calendar entries). -/
def fireItemClose (s : Sys) : Sys :=
  let s1 := if s.firstBidPlaced then recordSold s else s
  { s1 with cal := s1.cal.filter (fun e => match e.ev with
      | .pollTick _ => false
      | .timeoutFire => false
      | _ => true) }

/-- The `BidderGenerator` loop together with the generated bidders' own
stochastic runs, abstracted: each generated bidder consumes two draws, one
selecting its strategy by the source's thresholds (`< 0.4` Agent, `< 0.65`
Ratchet, else Sniper) and one giving the instant, relative to the item open
time `t0`, at which its behavior reaches its `Insert`/`Passivate` decision
point (for a sniper: its fire time plus jitter; for an agent/ratchet: its
patience loop).  The decision is scheduled as a `bidderDecide` event. -/
def genBidders : ℕ → ℚ → Sys → Sys
  | 0, _, s => s
  | n + 1, t0, s =>
    let (prob, s1) := popDraw s
    let (delay, s2) := popDraw s1
    let strat := if prob < (2/5 : ℚ) then Strategy.AGENT
                 else if prob < (13/20 : ℚ) then Strategy.RATCHET
                 else Strategy.SNIPER
    let pid := s2.nextSerial
    genBidders n t0 (schedule (t0 + delay) 0 (.bidderDecide strat pid) s2)

/-- The activation of a new `AuctionItem` (its `Behavior` up to
`Wait(SINGLE_ITEM_DURATION)`):

* `Priority = 10;`
* `ItemEndTime = Time + SINGLE_ITEM_DURATION; itemNumber++;
  firstBidPlaced = false;`
* draw `RealPrice` (exponential) and the starting-price factor
  (`Normal(0.8, 0.2)`): `currentPrice = RealPrice * factor`; `lastBidder = NONE;`
* activate the three poller processes (their behaviors enter the
  `while (Time < ItemEndTime)` loop and first resume after `Wait(0.1)` —
  if the duration is non-positive the loop guard fails at once and they
  passivate without ever ticking);
* activate a `BidderGenerator` (one draw for the population size
  `max(Normal(NUMBER_OF_BIDDERS, ·), 0.0)` truncated to `int`, then the
  per-bidder draws);
* construct the `FirstBidTimeout`, which `Activate(Time + dt)`s itself;
* `Wait(SINGLE_ITEM_DURATION)` — resume as `itemClose` at priority 10. -/
def fireItemOpen (s : Sys) : Sys :=
  let t := s.time
  let dur : ℚ := (s.params.singleItemDuration : ℚ)
  let s0 := { s with
    itemEndTime := t + dur
    itemNumber := s.itemNumber + 1
    firstBidPlaced := false
    lastBidder := NONEcode
    itemCancelled := false }
  let (realPrice, s1) := popDraw s0
  let (startFactor, s2) := popDraw s1
  let s3 := { s2 with currentPrice := realPrice * startFactor }
  let s4 :=
    if t < t + dur then
      schedule (t + 1/10) 0 (.pollTick .SNIPER)
        (schedule (t + 1/10) 0 (.pollTick .RATCHET)
          (schedule (t + 1/10) 0 (.pollTick .AGENT) s3))
    else s3
  let (countDraw, s5) := popDraw s4
  let s6 := genBidders (max countDraw 0).floor.toNat t s5
  let s7 := schedule (t + s.params.auctionItemTimeout) 0 .timeoutFire s6
  schedule (t + dur) 10 .itemClose s7

/-- The `Auction` process at the top of its `while (itemNumber <
NUMBER_OF_ITEMS)` loop (its first activation, or resuming from
`Wait(SINGLE_ITEM_DURATION + 30)` followed by `Release(runningAuction)`):
if items remain it seizes `runningAuction`, constructs and activates a new
`AuctionItem` (scheduled at the current instant, at the item's
default priority 0), calls `returnFromQueues()`, and suspends in
`Wait(SINGLE_ITEM_DURATION + 30)`; otherwise the loop exits. -/
def fireAuctionResume (s : Sys) : Sys :=
  if s.itemNumber < s.params.numberOfItems then
    schedule (s.time + (s.params.singleItemDuration : ℚ) + 30) 0 .auctionResume
      (returnFromQueues (schedule s.time 0 .itemOpen s))
  else s

/-- Dispatch of an event to the state-transformer of its process section.
A poller that ran its tick at a time still before `ItemEndTime` loops and
re-enters `Wait(0.1)`, rescheduling itself a tenth of a second later;
at or past `ItemEndTime` it passivated and is not rescheduled. -/
def fireEvent : EventKind → Sys → Sys
  | .auctionResume, s => fireAuctionResume s
  | .itemOpen, s => fireItemOpen s
  | .pollTick strat, s =>
      let s' := pollerTick strat s
      if s.time < s.itemEndTime then schedule (s.time + 1/10) 0 (.pollTick strat) s' else s'
  | .timeoutFire, s => fireTimeout s
  | .itemClose, s => fireItemClose s
  | .bidderDecide strat pid, s => enqueueBidder strat pid s

/-- Fire one calendar entry: advance the simulated clock to its activation
time, take it off the calendar, and run its event. -/
def fireEntry (e : CalEntry) (s : Sys) : Sys :=
  fireEvent e.ev { s with time := e.time, cal := removeEntry e s.cal }

/-- The initial state of `main` after `Init(0, ...)` and
`(new Auction)->Activate()`: all globals at their declared initial values
(`currentPrice = -1`, `firstBidPlaced = false`, `lastBidder = NONE`, empty
queues, free facility, zeroed statistics) and a single calendar entry
activating the `Auction` process at time `0`. -/
def initSys (tape : List ℚ) (p : Params) : Sys :=
  { params := p
    time := 0
    itemEndTime := 0
    itemNumber := 0
    currentPrice := -1
    firstBidPlaced := false
    lastBidder := NONEcode
    agentQueue := []
    ratchetQueue := []
    sniperQueue := []
    facility := none
    bidLog := []
    winnersHist := []
    winnerStats := ⟨0, 0, 0, 0⟩
    itemCancelled := false
    activated := []
    cal := [⟨0, 0, 0, .auctionResume⟩]
    nextSerial := 1
    tape := tape }

/-! ## The scheduler's pick order

SIMLIB pops the calendar entry with the least activation time, breaking ties
by process priority (higher priority first) and then by insertion order
(FIFO).  `entryLEb` is that comparison; serial numbers are unique by
construction (they come from the `nextSerial` counter), so the final
equality test on the event never decides between two live entries. -/

/-- Calendar pick order: earlier time first, then higher priority, then
smaller insertion serial. -/
def entryLEb (a b : CalEntry) : Bool :=
  decide (a.time < b.time) ||
    (decide (a.time = b.time) &&
      (decide (b.prio < a.prio) ||
        (decide (a.prio = b.prio) &&
          (decide (a.serial < b.serial) ||
            (decide (a.serial = b.serial) && decide (a.ev = b.ev))))))

/-- The entry the scheduler fires next: it is on the calendar and precedes
every calendar entry in the pick order. -/
def isNext (cal : List CalEntry) (e : CalEntry) : Prop :=
  e ∈ cal ∧ ∀ f ∈ cal, entryLEb e f = true

instance (cal : List CalEntry) (e : CalEntry) : Decidable (isNext cal e) :=
  inferInstanceAs (Decidable (_ ∧ _))

/-- One scheduler step: fire a next entry. -/
inductive Step : Sys → Sys → Prop
  | fire (s : Sys) (e : CalEntry) (h : isNext s.cal e) : Step s (fireEntry e s)

/-- `n` scheduler steps. -/
inductive StepN : ℕ → Sys → Sys → Prop
  | zero (s : Sys) : StepN 0 s s
  | succ {s s' s'' : Sys} {n : ℕ} (h : Step s s') (hs : StepN n s' s'') :
      StepN (n + 1) s s''

/-! ## Determinism of the scheduler's pick -/

/-- The pick order is antisymmetric: two entries preceding each other are the
same entry. -/
theorem entryLEb_antisymm {a b : CalEntry} (hab : entryLEb a b = true)
    (hba : entryLEb b a = true) : a = b := by
  simp only [entryLEb, Bool.or_eq_true, Bool.and_eq_true, decide_eq_true_eq] at hab hba
  have ht : a.time = b.time := by
    rcases hab with h | ⟨h, _⟩
    · rcases hba with h2 | ⟨h2, _⟩
      · exact absurd h2 (lt_asymm h)
      · exact h2.symm
    · exact h
  replace hab : b.prio < a.prio ∨ a.prio = b.prio ∧
      (a.serial < b.serial ∨ a.serial = b.serial ∧ a.ev = b.ev) := by
    rcases hab with h | ⟨_, h⟩
    · rw [ht] at h; exact absurd h (lt_irrefl _)
    · exact h
  replace hba : a.prio < b.prio ∨ b.prio = a.prio ∧
      (b.serial < a.serial ∨ b.serial = a.serial ∧ b.ev = a.ev) := by
    rcases hba with h | ⟨_, h⟩
    · rw [ht] at h; exact absurd h (lt_irrefl _)
    · exact h
  have hp : a.prio = b.prio := by
    rcases hab with h | ⟨h, _⟩
    · rcases hba with h2 | ⟨h2, _⟩
      · exact absurd h2 (lt_asymm h)
      · exact h2.symm
    · exact h
  replace hab : a.serial < b.serial ∨ a.serial = b.serial ∧ a.ev = b.ev := by
    rcases hab with h | ⟨_, h⟩
    · rw [hp] at h; exact absurd h (lt_irrefl _)
    · exact h
  replace hba : b.serial < a.serial ∨ b.serial = a.serial ∧ b.ev = a.ev := by
    rcases hba with h | ⟨_, h⟩
    · rw [hp] at h; exact absurd h (lt_irrefl _)
    · exact h
  have hs : a.serial = b.serial := by
    rcases hab with h | ⟨h, _⟩
    · rcases hba with h2 | ⟨h2, _⟩
      · exact absurd h2 (lt_asymm h)
      · exact h2.symm
    · exact h
  have he : a.ev = b.ev := by
    rcases hab with h | ⟨_, h⟩
    · rw [hs] at h; exact absurd h (lt_irrefl _)
    · exact h
  cases a; cases b; simp_all

/-- At most one entry can be picked next. -/
theorem isNext_unique {cal : List CalEntry} {e₁ e₂ : CalEntry}
    (h₁ : isNext cal e₁) (h₂ : isNext cal e₂) : e₁ = e₂ :=
  entryLEb_antisymm (h₁.2 e₂ h₂.1) (h₂.2 e₁ h₁.1)

/-- A scheduler step is deterministic. -/
theorem step_deterministic {s t₁ t₂ : Sys} (h₁ : Step s t₁) (h₂ : Step s t₂) :
    t₁ = t₂ := by
  cases h₁ with
  | fire e₁ he₁ =>
    cases h₂ with
    | fire e₂ he₂ => rw [isNext_unique he₁ he₂]

/-- A fixed number of scheduler steps from a fixed state is deterministic. -/
theorem stepN_deterministic {n : ℕ} {s t₁ t₂ : Sys}
    (h₁ : StepN n s t₁) (h₂ : StepN n s t₂) : t₁ = t₂ := by
  induction h₁ generalizing t₂ with
  | zero => cases h₂; rfl
  | succ h hs ih =>
    cases h₂ with
    | succ h' hs' => exact ih (by rwa [← step_deterministic h h'] at hs')

/-! ## Preservation lemmas -/

/-- `genBidders` only consumes tape and schedules decision events: the
simulation globals are untouched. -/
theorem genBidders_preserves (n : ℕ) (t0 : ℚ) (s : Sys) :
    (genBidders n t0 s).facility = s.facility ∧
    (genBidders n t0 s).currentPrice = s.currentPrice ∧
    (genBidders n t0 s).firstBidPlaced = s.firstBidPlaced ∧
    (genBidders n t0 s).winnersHist = s.winnersHist ∧
    (genBidders n t0 s).winnerStats = s.winnerStats ∧
    (genBidders n t0 s).itemEndTime = s.itemEndTime ∧
    (genBidders n t0 s).time = s.time := by
  induction n generalizing s with
  | zero => exact ⟨rfl, rfl, rfl, rfl, rfl, rfl, rfl⟩
  | succ n ih =>
    simpa only [genBidders, popDraw, schedule] using
      ih (schedule (t0 + s.tape.tail.headD 0) 0
        (.bidderDecide (if s.tape.headD 0 < (2/5 : ℚ) then Strategy.AGENT
          else if s.tape.headD 0 < (13/20 : ℚ) then Strategy.RATCHET
          else Strategy.SNIPER) ({ s with tape := s.tape.tail.tail }).nextSerial)
        { s with tape := s.tape.tail.tail })

@[simp] theorem genBidders_facility (n : ℕ) (t0 : ℚ) (s : Sys) :
    (genBidders n t0 s).facility = s.facility := (genBidders_preserves n t0 s).1

@[simp] theorem genBidders_currentPrice (n : ℕ) (t0 : ℚ) (s : Sys) :
    (genBidders n t0 s).currentPrice = s.currentPrice :=
  (genBidders_preserves n t0 s).2.1

/-- A poller tick on a free facility ends with the facility free (a
committing tick releases it at the end of its critical section; any other
tick does not touch it). -/
theorem pollerTick_facility_none {strat : Strategy} {s : Sys}
    (h : s.facility = none) : (pollerTick strat s).facility = none := by
  unfold pollerTick
  split
  · exact h
  · split
    · rfl
    · exact h

/-- Every event, fired on a state with a free facility, leaves it free. -/
theorem fireEvent_facility (k : EventKind) (s : Sys) (h : s.facility = none) :
    (fireEvent k s).facility = none := by
  cases k with
  | auctionResume =>
    simp only [fireEvent, fireAuctionResume]
    split
    · simpa [schedule, returnFromQueues] using h
    · exact h
  | itemOpen =>
    simp only [fireEvent, fireItemOpen, popDraw, schedule, genBidders_facility]
    split <;> simp [schedule, h]
  | pollTick strat =>
    simp only [fireEvent]
    split
    · simpa [schedule] using pollerTick_facility_none h
    · exact pollerTick_facility_none h
  | timeoutFire =>
    simp only [fireEvent, fireTimeout, recordNone]
    split
    · exact h
    · simpa using h
  | itemClose =>
    simp only [fireEvent, fireItemClose]
    split <;> simp [recordSold, h]
  | bidderDecide strat pid =>
    cases strat <;> simp [fireEvent, enqueueBidder, h]

/-- Firing a calendar entry on a state with a free facility leaves it
free. -/
theorem fireEntry_facility (e : CalEntry) (s : Sys) (h : s.facility = none) :
    (fireEntry e s).facility = none :=
  fireEvent_facility e.ev _ h

/-- All states reachable by the scheduler have a free facility. -/
theorem stepN_facility {n : ℕ} {s t : Sys} (hs : StepN n s t)
    (h : s.facility = none) : t.facility = none := by
  induction hs with
  | zero => exact h
  | succ hstep _ ih =>
    apply ih
    cases hstep with
    | fire e he => exact fireEntry_facility e _ h

/-- The `printf` stage touches (at most) the sniper queue: every other field
is unchanged, and the sniper queue becomes its tail exactly on a sniper
commit. -/
@[simp] theorem printBid_currentPrice (strat : Strategy) (s : Sys) :
    (printBid strat s).currentPrice = s.currentPrice := by
  cases strat <;> rfl

@[simp] theorem printBid_facility (strat : Strategy) (s : Sys) :
    (printBid strat s).facility = s.facility := by
  cases strat <;> rfl

@[simp] theorem printBid_bidLog (strat : Strategy) (s : Sys) :
    (printBid strat s).bidLog = s.bidLog := by
  cases strat <;> rfl

@[simp] theorem printBid_firstBidPlaced (strat : Strategy) (s : Sys) :
    (printBid strat s).firstBidPlaced = s.firstBidPlaced := by
  cases strat <;> rfl

@[simp] theorem printBid_agentQueue (strat : Strategy) (s : Sys) :
    (printBid strat s).agentQueue = s.agentQueue := by
  cases strat <;> rfl

@[simp] theorem printBid_ratchetQueue (strat : Strategy) (s : Sys) :
    (printBid strat s).ratchetQueue = s.ratchetQueue := by
  cases strat <;> rfl

@[simp] theorem printBid_activated (strat : Strategy) (s : Sys) :
    (printBid strat s).activated = s.activated := by
  cases strat <;> rfl

@[simp] theorem printBid_sniperQueue (strat : Strategy) (s : Sys) :
    (printBid strat s).sniperQueue
      = if strat = Strategy.SNIPER then s.sniperQueue.tail else s.sniperQueue := by
  cases strat <;> simp [printBid]

/-- The committed price of the critical section, for every strategy (the
sniper poller's extra queue pop does not touch the price). -/
theorem commitBlock_currentPrice (strat : Strategy) (s : Sys) :
    (commitBlock strat s).currentPrice = commitQ s.currentPrice := by
  cases strat <;> rfl

/-- A committing tick produces the price `commitQ currentPrice`; any other
tick leaves the price unchanged. -/
theorem pollerTick_price (strat : Strategy) (s : Sys) :
    (pollerTick strat s).currentPrice = s.currentPrice ∨
    (pollerTick strat s).currentPrice = commitQ s.currentPrice := by
  unfold pollerTick
  split
  · exact Or.inl rfl
  · split
    · exact Or.inr (commitBlock_currentPrice strat s)
    · exact Or.inl rfl

/-- Outside an item opening (which redraws the price), no event decreases a
nonnegative `currentPrice`: a committing tick multiplies it by `101/100`, and
every other event leaves it unchanged. -/
theorem fireEvent_price_mono (k : EventKind) (s : Sys) (hk : k ≠ EventKind.itemOpen)
    (h0 : 0 ≤ s.currentPrice) :
    s.currentPrice ≤ (fireEvent k s).currentPrice ∧
    0 ≤ (fireEvent k s).currentPrice := by
  have hinc : s.currentPrice ≤ commitQ s.currentPrice ∧ 0 ≤ commitQ s.currentPrice := by
    unfold commitQ minimalIncrementQ
    constructor <;> nlinarith
  cases k with
  | auctionResume =>
    have hpr : (fireAuctionResume s).currentPrice = s.currentPrice := by
      simp only [fireAuctionResume]
      split <;> simp [schedule, returnFromQueues]
    simp only [fireEvent, hpr]
    exact ⟨le_refl _, h0⟩
  | itemOpen => exact absurd rfl hk
  | pollTick strat =>
    have hcal : (fireEvent (.pollTick strat) s).currentPrice =
        (pollerTick strat s).currentPrice := by
      simp only [fireEvent]
      split <;> simp [schedule]
    rw [hcal]
    rcases pollerTick_price strat s with h | h <;> rw [h]
    · exact ⟨le_refl _, h0⟩
    · exact hinc
  | timeoutFire =>
    have hpr : (fireTimeout s).currentPrice = s.currentPrice := by
      simp only [fireTimeout, recordNone]
      split <;> rfl
    simp only [fireEvent, hpr]
    exact ⟨le_refl _, h0⟩
  | itemClose =>
    have hpr : (fireItemClose s).currentPrice = s.currentPrice := by
      simp only [fireItemClose]
      split <;> simp [recordSold]
    simp only [fireEvent, hpr]
    exact ⟨le_refl _, h0⟩
  | bidderDecide strat pid =>
    have hpr : (fireEvent (.bidderDecide strat pid) s).currentPrice = s.currentPrice := by
      cases strat <;> simp [fireEvent, enqueueBidder]
    rw [hpr]
    exact ⟨le_refl _, h0⟩

/-! ## The sniping bidder (`SnipingBidder::Behavior`) -/

/-- The inputs of one sniper's life: the time its behavior starts, its draws
(`snipeDelay = Normal(0, 0.1/3)` taken at construction, the
`Exponential(0.2)` reaction time and the `Exponential(0.1)` network latency),
the price it observes after the waits, its valuation, and the round end
time. -/
structure SniperInput : Type where
  startTime : ℚ
  snipeDelay : ℚ
  reaction : ℚ
  latency : ℚ
  currentPrice : ℚ
  valuation : ℚ
  roundEndTime : ℚ
deriving DecidableEq, Repr

/-- The single decision a sniper's straight-line behavior produces, tagged
with the simulated time at which it is taken. -/
inductive SniperOutcome : Type
  | enqueued (t : ℚ)
  | terminated (t : ℚ)
deriving DecidableEq, Repr

/-- `SnipingBidder::Behavior`, straight-line:
`snipeTime = roundEndTime - snipeDelay; if (Time < snipeTime)
Wait(snipeTime - Time); Wait(reaction); Wait(latency);
if (Time > roundEndTime) Terminate();
if (currentPrice + minimalIncrement() <= valuation) { Insert; Passivate(); }
Terminate();`. -/
def sniperBehavior (i : SniperInput) : SniperOutcome :=
  let snipeTime := i.roundEndTime - i.snipeDelay
  let t1 := if i.startTime < snipeTime then snipeTime else i.startTime
  let t2 := t1 + i.reaction + i.latency
  if i.roundEndTime < t2 then .terminated t2
  else if i.currentPrice + minimalIncrementQ i.currentPrice ≤ i.valuation then .enqueued t2
  else .terminated t2

/-- The time at which the sniper takes its decision: it sleeps until
`endTime − snipeDelay` (or not at all if that is already past) and adds the
reaction and latency jitters. -/
def sniperDecisionTime (i : SniperInput) : ℚ :=
  max (i.roundEndTime - i.snipeDelay) i.startTime + i.reaction + i.latency

/-- All enqueue operations over a sniper's whole lifetime.  The behavior has
a single `Insert` site followed by `Passivate()`; a sniper reactivated by
`returnFromQueues` falls through to the final `Terminate()` without looping,
so the list never holds more than one element. -/
def sniperEnqueues (i : SniperInput) : List ℚ :=
  match sniperBehavior i with
  | .enqueued t => [t]
  | .terminated _ => []

/-! ## Winner statistics (`winners` histogram and `winnerStats[4]`) -/

/-- How one item closes: sold (at least one committed bid; the winner is the
strategy of the last committing poller), or discarded unsold by the
first-bid timeout. -/
inductive ItemResult : Type
  | sold (w : Strategy)
  | timedOutUnsold
deriving DecidableEq, Repr

/-- Whether the item was sold. -/
def ItemResult.isSold : ItemResult → Bool
  | .sold _ => true
  | .timedOutUnsold => false

/-- The statistics updates performed when one item closes, exactly as the two
recording sites do them: the sold branch of `AuctionItem::Behavior` runs
`winners(lastBidder); winnerStats[lastBidder + 1]++;`, the no-bid branch of
`FirstBidTimeout::Behavior` runs `winners(NONE);` only. -/
def itemStatsUpdate : ItemResult → List Int × WStats → List Int × WStats
  | .sold w, (h, st) => (h ++ [stratCode w], st.bump (stratCode w + 1))
  | .timedOutUnsold, (h, st) => (h ++ [NONEcode], st)

/-- The statistics accumulated over a run of items, from zeroed counters. -/
def runStats (rs : List ItemResult) : List Int × WStats :=
  rs.foldl (fun acc r => itemStatsUpdate r acc) ([], ⟨0, 0, 0, 0⟩)

/-- Folding the per-item updates: the histogram gains one record per item,
and the `winnerStats` counters gain one only per sold item. -/
theorem itemStats_fold (rs : List ItemResult) (h : List Int) (st : WStats) :
    (rs.foldl (fun acc r => itemStatsUpdate r acc) (h, st)).1.length
      = h.length + rs.length ∧
    (rs.foldl (fun acc r => itemStatsUpdate r acc) (h, st)).2.total
      = st.total + (rs.filter ItemResult.isSold).length := by
  induction rs generalizing h st with
  | nil => simp
  | cons r rs ih =>
    cases r with
    | sold w =>
      have ihx := ih (h ++ [stratCode w]) (st.bump (stratCode w + 1))
      have hstep :
          List.foldl (fun acc r => itemStatsUpdate r acc) (h, st) (ItemResult.sold w :: rs)
            = List.foldl (fun acc r => itemStatsUpdate r acc)
                (h ++ [stratCode w], st.bump (stratCode w + 1)) rs := rfl
      rw [hstep]
      refine ⟨?_, ?_⟩
      · rw [ihx.1]; simp; omega
      · rw [ihx.2]
        have hb : (st.bump (stratCode w + 1)).total = st.total + 1 := by
          cases w <;> simp [WStats.bump, stratCode, WStats.total] <;> omega
        rw [hb]
        simp [ItemResult.isSold]
        omega
    | timedOutUnsold =>
      have ihx := ih (h ++ [NONEcode]) st
      have hstep :
          List.foldl (fun acc r => itemStatsUpdate r acc) (h, st)
              (ItemResult.timedOutUnsold :: rs)
            = List.foldl (fun acc r => itemStatsUpdate r acc) (h ++ [NONEcode], st) rs := rfl
      rw [hstep]
      refine ⟨?_, ?_⟩
      · rw [ihx.1]; simp; omega
      · rw [ihx.2]
        simp [ItemResult.isSold]

/-! ## Command-line parsing (`main`) -/

/-- Greedy leading-digit run of a character list. -/
def takeDigits (cs : List Char) : List Char := cs.takeWhile (fun c => c.isDigit)

/-- Value of a digit run. -/
def digitsVal (ds : List Char) : ℕ := ds.foldl (fun a c => a * 10 + (c.toNat - 48)) 0

/-- `std::stoi`: skip leading spaces, optional sign, then at least one digit
(further characters are ignored); no digit at all throws
`std::invalid_argument`, modelled as `none`. -/
def stoi (str : String) : Option Int :=
  let cs := str.data.dropWhile (fun c => c = ' ')
  let signed : Bool × List Char :=
    match cs with
    | '-' :: rest => (true, rest)
    | '+' :: rest => (false, rest)
    | rest => (false, rest)
  let ds := takeDigits signed.2
  if ds = [] then none
  else some (if signed.1 then -(digitsVal ds : Int) else (digitsVal ds : Int))

/-- `std::stod` on the decimal forms the simulation is called with (an
optional sign, digits, an optional fraction); scientific notation and
hexadecimal floats are out of scope.  No digit at all is
`std::invalid_argument`, modelled as `none`. -/
def stod (str : String) : Option ℚ :=
  let cs := str.data.dropWhile (fun c => c = ' ')
  let signed : Bool × List Char :=
    match cs with
    | '-' :: rest => (true, rest)
    | '+' :: rest => (false, rest)
    | rest => (false, rest)
  let ds := takeDigits signed.2
  if ds = [] then none
  else
    let intPart : ℚ := (digitsVal ds : ℚ)
    let rest := signed.2.drop ds.length
    let q : ℚ :=
      match rest with
      | '.' :: r2 =>
          let fs := takeDigits r2
          intPart + (digitsVal fs : ℚ) / ((10 : ℚ) ^ fs.length)
      | _ => intPart
    some (if signed.1 then -q else q)

/-- C++ truncation of a `double` assigned to an `int` (toward zero). -/
def truncToInt (q : ℚ) : Int := if 0 ≤ q then q.floor else -((-q).floor)

/-- Outcome of `main`'s argument-parsing loop. -/
inductive ParseResult : Type
  | ok (c : Params)
  | usage
  | crash
deriving DecidableEq, Repr

/-- The argument-parsing loop of `main`: each recognized flag (`-i`, `-b`,
`-d`, `-t`) followed by a value updates the corresponding local; a
recognized flag that is the last argument, or any unrecognized token, prints
the usage message and returns `EXIT_FAILURE`.  The numeric values are not
validated in any way. -/
def parseLoop : List String → Params → ParseResult
  | [], c => .ok c
  | a :: rest, c =>
    if a = "-i" then
      match rest with
      | v :: rest' =>
        match stoi v with
        | some n => parseLoop rest' { c with numberOfItems := n }
        | none => .crash
      | [] => .usage
    else if a = "-b" then
      match rest with
      | v :: rest' =>
        match stod v with
        | some q => parseLoop rest' { c with numberOfBidders := truncToInt q }
        | none => .crash
      | [] => .usage
    else if a = "-d" then
      match rest with
      | v :: rest' =>
        match stoi v with
        | some n => parseLoop rest' { c with singleItemDuration := n }
        | none => .crash
      | [] => .usage
    else if a = "-t" then
      match rest with
      | v :: rest' =>
        match stod v with
        | some q => parseLoop rest' { c with auctionItemTimeout := q }
        | none => .crash
      | [] => .usage
    else .usage

/-- The defaults of `main`'s locals: `numberOfItems = NUMBER_OF_ITEMS =
3460`, `numberOfBidders = NUMBER_OF_BIDDERS = 70`, `singleItemDuration =
SINGLE_ITEM_DURATION = 60`, `auctionItemTimeout = SINGLE_ITEM_DURATION / 2 =
30` (integer division in the initializer). -/
def defaultArgs : Params := ⟨3460, 70, 60, 30⟩

/-- What `main` does with a command line.  After a successful parse it
assigns the globals — applying the `-t 0` rule `AUCTION_ITEM_TIMEOUT =
SINGLE_ITEM_DURATION` — seeds the generator, calls `Init` and `Run`s the
simulation: there is no validation between parsing and the run. -/
inductive MainOutcome : Type
  | usageFailure
  | crash
  | run (p : Params)
deriving DecidableEq, Repr

/-- `main` as a function of its argument list. -/
def mainProgram (args : List String) : MainOutcome :=
  match parseLoop args defaultArgs with
  | .usage => .usageFailure
  | .crash => .crash
  | .ok c =>
      .run { c with auctionItemTimeout :=
        if c.auctionItemTimeout = 0 then (c.singleItemDuration : ℚ)
        else c.auctionItemTimeout }

/-! ## Concrete states for the evaluations -/

/-- The source's default parameters (`NUMBER_OF_ITEMS = 3460`,
`NUMBER_OF_BIDDERS = 70`, `SINGLE_ITEM_DURATION = 60`,
`AUCTION_ITEM_TIMEOUT = 30`). -/
def pDefault : Params := ⟨3460, 70, 60, 30⟩

/-- A mid-item state under default parameters: item 1 open from time 0 to 60,
current time 10, starting price 100, one agent bidder queued, facility
free. -/
def midItem : Sys :=
  { params := pDefault
    time := 10
    itemEndTime := 60
    itemNumber := 1
    currentPrice := 100
    firstBidPlaced := false
    lastBidder := NONEcode
    agentQueue := [1]
    ratchetQueue := []
    sniperQueue := []
    facility := none
    bidLog := []
    winnersHist := []
    winnerStats := ⟨0, 0, 0, 0⟩
    itemCancelled := false
    activated := []
    cal := []
    nextSerial := 20
    tape := [] }

/-- `midItem` with a held facility (the ratchet poller inside its critical
section). -/
def busyItem : Sys := { midItem with facility := some .RATCHET }

/-- `midItem` with the queued bidder on the ratchet queue instead. -/
def midRatchet : Sys := { midItem with agentQueue := [], ratchetQueue := [3] }

/-- `midItem` with a negative starting price (`RealPrice * Normal(0.8, 0.2)`
with a negative normal draw) and a queued sniper. -/
def negItem : Sys := { midItem with currentPrice := -1, agentQueue := [], sniperQueue := [5] }

/-- `midItem` with the queued bidder (number 5) on the sniper queue. -/
def midSniper : Sys := { midItem with agentQueue := [], sniperQueue := [5] }

/-- A no-bid state at the first-bid deadline of the default configuration:
item 1 open from time 0 to 60, nothing committed, nothing queued.  The
calendar holds the pending timeout (time 30), one of the sniper poller's
ticks (kept at time 46; the intermediate empty-queue ticks each just move the
poller 0.1 later and change nothing else), a sniper's decision instant at
time 45, and the item-close resumption at time 60 (priority 10). -/
def c4Open : Sys :=
  { params := pDefault
    time := 29
    itemEndTime := 60
    itemNumber := 1
    currentPrice := 100
    firstBidPlaced := false
    lastBidder := NONEcode
    agentQueue := []
    ratchetQueue := []
    sniperQueue := []
    facility := none
    bidLog := []
    winnersHist := []
    winnerStats := ⟨0, 0, 0, 0⟩
    itemCancelled := false
    activated := []
    cal := [⟨30, 0, 9, .timeoutFire⟩, ⟨46, 0, 10, .pollTick .SNIPER⟩,
            ⟨45, 0, 12, .bidderDecide .SNIPER 7⟩, ⟨60, 10, 8, .itemClose⟩]
    nextSerial := 20
    tape := [] }

/-! ## The claims -/

/-- C1 (amended): at every arbitration-poller tick fired before the item's
end at which the poller's own DecisionQueue is non-empty and the bidding
Facility is free, the poller acquires the Facility (the first stage of its
critical section holds it), commits exactly one price increment
(`currentPrice` becomes `currentPrice + currentPrice * 0.01`), sets the
winner-strategy marker `lastBidder` to its own strategy, marks
`firstBidPlaced`, and releases the Facility.  It reactivates the bidders
queued in all three DecisionQueues — except that on a *sniper* commit the
head of the sniper queue is destructively dequeued by the logging `printf`'s
`SniperDecidedToBid.GetFirst()` (source line 478) before the wake-up, and is
never reactivated.  And it records nothing to the logging sink, because the
source is compiled with `LOGGING == false`, so `logSingleBid` is never
called. -/
theorem c1_poller_tick_commit (strat : Strategy) (s : Sys)
    (htime : s.time < s.itemEndTime) (hq : queueOf strat s ≠ [])
    (hf : s.facility = none) :
    (pollerTick strat s).currentPrice = s.currentPrice + s.currentPrice * (1 / 100) ∧
    (pollerTick strat s).lastBidder = stratCode strat ∧
    (pollerTick strat s).firstBidPlaced = true ∧
    (pollerTick strat s).agentQueue = [] ∧
    (pollerTick strat s).ratchetQueue = [] ∧
    (pollerTick strat s).sniperQueue = [] ∧
    (pollerTick strat s).activated
      = s.activated ++ s.agentQueue ++ s.ratchetQueue
          ++ (if strat = Strategy.SNIPER then s.sniperQueue.tail else s.sniperQueue) ∧
    (seizeF strat s).facility = some strat ∧
    (pollerTick strat s).facility = none ∧
    (pollerTick strat s).bidLog = s.bidLog := by
  have hred : pollerTick strat s = commitBlock strat s := by
    unfold pollerTick
    rw [if_neg (not_le.mpr htime), if_pos ⟨hq, hf⟩]
  rw [hred]
  cases strat <;>
    simp [commitBlock, releaseF, returnFromQueues, setLastBidder, printBid, logBid,
      LOGGING, commitPrice, seizeF, commitQ, minimalIncrementQ]

/-- C1 witness: the amended facts at the concrete state `midItem` and the
agent poller. -/
theorem c1_poller_tick_commit_witness :
    (pollerTick .AGENT midItem).currentPrice
        = midItem.currentPrice + midItem.currentPrice * (1 / 100) ∧
    (pollerTick .AGENT midItem).lastBidder = stratCode .AGENT ∧
    (pollerTick .AGENT midItem).firstBidPlaced = true ∧
    (pollerTick .AGENT midItem).agentQueue = [] ∧
    (pollerTick .AGENT midItem).ratchetQueue = [] ∧
    (pollerTick .AGENT midItem).sniperQueue = [] ∧
    (pollerTick .AGENT midItem).activated
      = midItem.activated ++ midItem.agentQueue ++ midItem.ratchetQueue
          ++ (if Strategy.AGENT = Strategy.SNIPER then midItem.sniperQueue.tail
              else midItem.sniperQueue) ∧
    (seizeF .AGENT midItem).facility = some .AGENT ∧
    (pollerTick .AGENT midItem).facility = none ∧
    (pollerTick .AGENT midItem).bidLog = midItem.bidLog :=
  c1_poller_tick_commit .AGENT midItem (by decide) (by decide) rfl

/-- C1 counterexample, refuting two parts of the claim on the source.  A
committing agent tick (agent queued, facility free, time 10 before end 60)
raises the price from 100 to 101 and commits the bid, yet appends nothing to
the logging sink — "records the increment to the logging sink" fails,
`LOGGING` being `false`.  And a committing sniper tick at `midSniper`
(sniper 5 queued) reactivates nobody: bidder 5, queued at commit time, is
popped by the poller's `printf` and never activated — "reactivates every
bidder currently queued in all three DecisionQueues" fails too. -/
theorem c1_no_sink_record_counterexample :
    (pollerTick .AGENT midItem).currentPrice = 101 ∧
    (pollerTick .AGENT midItem).firstBidPlaced = true ∧
    (pollerTick .AGENT midItem).bidLog = [] ∧
    (pollerTick .SNIPER midSniper).firstBidPlaced = true ∧
    (pollerTick .SNIPER midSniper).activated = [] ∧
    (pollerTick .SNIPER midSniper).sniperQueue = [] := by
  have hred : pollerTick .AGENT midItem = commitBlock .AGENT midItem := by
    unfold pollerTick
    rw [if_neg (by decide), if_pos ⟨by decide, rfl⟩]
  refine ⟨?_, ?_, ?_, by decide, by decide, by decide⟩
  · rw [hred, commitBlock_currentPrice]
    unfold commitQ minimalIncrementQ midItem
    norm_num
  · rw [hred]; rfl
  · rw [hred]; rfl

/-- C2 (amended): provided an item's starting draw `currentPrice =
realPrice * Normal(0.8, 0.2)` is nonnegative, `currentPrice` is
non-decreasing across the item's lifetime: every event other than an item
opening (which redraws the price for the next item) leaves a nonnegative
price greater than or equal to its previous value, and nonnegative.  (The
normal factor can be drawn negative; a negative starting price is strictly
decreased by every committed bid, see the counterexample.) -/
theorem c2_price_monotone (e : CalEntry) (s : Sys)
    (hk : e.ev ≠ EventKind.itemOpen) (h0 : 0 ≤ s.currentPrice) :
    s.currentPrice ≤ (fireEntry e s).currentPrice ∧
    0 ≤ (fireEntry e s).currentPrice :=
  fireEvent_price_mono e.ev { s with time := e.time, cal := removeEntry e s.cal } hk h0

/-- C2 witness: a committing agent-poller tick at `midItem` (price 100). -/
theorem c2_price_monotone_witness :
    midItem.currentPrice
        ≤ (fireEntry ⟨10, 0, 5, .pollTick .AGENT⟩ midItem).currentPrice ∧
    0 ≤ (fireEntry ⟨10, 0, 5, .pollTick .AGENT⟩ midItem).currentPrice :=
  c2_price_monotone ⟨10, 0, 5, .pollTick .AGENT⟩ midItem (by decide) (by decide)

/-- C2 counterexample: with the starting draw `-1` (a negative
`Normal(0.8, 0.2)` factor), a committed sniper bid moves `currentPrice` from
`-1` to `-101/100 < -1`: the price strictly decreases, refuting the
unconditional non-decrease claim. -/
theorem c2_price_decrease_counterexample :
    (pollerTick .SNIPER negItem).firstBidPlaced = true ∧
    (pollerTick .SNIPER negItem).currentPrice < negItem.currentPrice := by
  have hred : pollerTick .SNIPER negItem = commitBlock .SNIPER negItem := by
    unfold pollerTick
    rw [if_neg (by decide), if_pos ⟨by decide, rfl⟩]
  rw [hred]
  refine ⟨rfl, ?_⟩
  show commitQ negItem.currentPrice < negItem.currentPrice
  unfold commitQ minimalIncrementQ negItem midItem
  norm_num

/-- C3: mutual exclusion on the bidding Facility.  (1) A poller whose tick
finds the Facility busy acquires nothing and does nothing (the whole tick is
a no-op); an acquire therefore only succeeds when the Facility is free.
(2) Inside a committing tick the machine states of the critical section hold
the Facility for the committing poller alone, from its `Seize` to its
`Release`, which frees it — no other process acquires it in between (the
section contains no suspension point, so no other process even runs; the
sniper poller's queue pop never touches the facility).
(3) Every state the scheduler can reach from a program start has the
Facility free: at every simulated instant there is no holder between
commits, hence never more than one holder. -/
theorem c3_facility_single_holder :
    (∀ (strat : Strategy) (s : Sys), s.facility ≠ none → pollerTick strat s = s) ∧
    (∀ (strat : Strategy) (s : Sys),
      (tickStages strat s).map Sys.facility
        = [some strat, some strat, some strat, some strat, some strat, some strat,
            none]) ∧
    (∀ (tape : List ℚ) (p : Params) (n : ℕ) (t : Sys),
      StepN n (initSys tape p) t → t.facility = none) := by
  refine ⟨?_, ?_, ?_⟩
  · intro strat s h
    unfold pollerTick
    split
    · rfl
    · rw [if_neg (fun hc => h hc.2)]
  · intro strat s
    simp [tickStages, seizeF, commitPrice, logBid, LOGGING, printBid_facility,
      setLastBidder, returnFromQueues, releaseF]
  · intro tape p n t hs
    exact stepN_facility hs rfl

/-- C3 witness: the busy-tick no-op at `busyItem`, the critical-section
holder pattern at `midItem`, and the free facility after zero steps from a
program start. -/
theorem c3_facility_single_holder_witness :
    pollerTick .AGENT busyItem = busyItem ∧
    (tickStages .AGENT midItem).map Sys.facility
      = [some .AGENT, some .AGENT, some .AGENT, some .AGENT, some .AGENT,
          some .AGENT, none] ∧
    (initSys [] pDefault).facility = none :=
  ⟨c3_facility_single_holder.1 .AGENT busyItem (by decide),
   c3_facility_single_holder.2.1 .AGENT midItem,
   c3_facility_single_holder.2.2 [] pDefault 0 (initSys [] pDefault) (.zero _)⟩

/-- State after the first-bid timeout fires on `c4Open`. -/
def c4s1 : Sys := fireEntry ⟨30, 0, 9, .timeoutFire⟩ c4Open

/-- State after the sniper's decision at time 45 on `c4s1`. -/
def c4s2 : Sys := fireEntry ⟨45, 0, 12, .bidderDecide .SNIPER 7⟩ c4s1

/-- State after the sniper poller's tick at time 46 on `c4s2`. -/
def c4s3 : Sys := fireEntry ⟨46, 0, 10, .pollTick .SNIPER⟩ c4s2

/-- C4 (code bug): when the `FirstBidTimeout` fires with no bid committed, it
records the `None` win and `Cancel()`s only the `AuctionItem` process — the
three arbitration pollers, the generator and the bidders keep running.  In
the scenario `c4Open` (default configuration, no bid before the deadline at
time 30): the timeout is the next event and firing it records `None`,
cancels the item's close resumption, and leaves the sniper poller scheduled;
at time 45 a sniper still enqueues itself; and the poller's tick at time
46 < endTime = 60 then commits its bid — `firstBidPlaced` becomes true, the
price rises from 100 to 101, the winner marker becomes Sniper.  The three
firings form an actual scheduler run (`StepN 3`).  The claim (and the
source's own comments, "the item is discarded") say no further bids for the
item are accepted after the `None` recording; the code accepts one. -/
theorem c4_timeout_discard_code_bug :
    (isNext c4Open.cal ⟨30, 0, 9, .timeoutFire⟩ ∧
     c4s1.winnersHist = [NONEcode] ∧
     c4s1.itemCancelled = true ∧
     (⟨46, 0, 10, .pollTick .SNIPER⟩ : CalEntry) ∈ c4s1.cal ∧
     (⟨60, 10, 8, .itemClose⟩ : CalEntry) ∉ c4s1.cal ∧
     isNext c4s1.cal ⟨45, 0, 12, .bidderDecide .SNIPER 7⟩ ∧
     c4s2.sniperQueue = [7] ∧
     isNext c4s2.cal ⟨46, 0, 10, .pollTick .SNIPER⟩ ∧
     c4s3.firstBidPlaced = true ∧
     c4s3.lastBidder = stratCode .SNIPER ∧
     c4s3.time < c4s3.itemEndTime) ∧
    c4s3.currentPrice = 101 ∧
    StepN 3 c4Open c4s3 := by
  refine ⟨by decide, ?_, ?_⟩
  · have hp : c4s3.currentPrice = commitQ 100 := rfl
    rw [hp]
    unfold commitQ minimalIncrementQ
    norm_num
  · exact .succ (.fire c4Open ⟨30, 0, 9, .timeoutFire⟩ (by decide))
      (.succ (.fire c4s1 ⟨45, 0, 12, .bidderDecide .SNIPER 7⟩ (by decide))
        (.succ (.fire c4s2 ⟨46, 0, 10, .pollTick .SNIPER⟩ (by decide)) (.zero c4s3)))

/-- C5 (amended): the statistics-update logic of the two recording sites.
For any sequence of closed items, the `winners` histogram receives exactly
one record per closed item — the winning strategy for a sold item, `None`
for an item discarded by the timeout — so its record count equals the number
of items; but the `winnerStats` counters are incremented only on the sold
path, so they sum to the number of *sold* items: the `None` slot
`winnerStats[0]` is never incremented (the timeout path updates only the
histogram).  The last two conjuncts tie the fold to the event functions of
the run semantics. -/
theorem c5_winner_stats_classification (rs : List ItemResult) (s : Sys) :
    (runStats rs).1.length = rs.length ∧
    (runStats rs).2.total = (rs.filter ItemResult.isSold).length ∧
    (s.firstBidPlaced = false →
      (fireTimeout s).winnersHist = s.winnersHist ++ [NONEcode] ∧
      (fireTimeout s).winnerStats = s.winnerStats) ∧
    (s.firstBidPlaced = true →
      (fireItemClose s).winnersHist = s.winnersHist ++ [s.lastBidder] ∧
      (fireItemClose s).winnerStats = s.winnerStats.bump (s.lastBidder + 1)) := by
  have h := itemStats_fold rs [] ⟨0, 0, 0, 0⟩
  refine ⟨by simpa [runStats] using h.1,
    by simpa [runStats, WStats.total] using h.2, ?_, ?_⟩
  · intro hb
    constructor <;> simp [fireTimeout, hb, recordNone]
  · intro hb
    constructor <;> simp [fireItemClose, hb, recordSold]

/-- A sold-state at item close: a bid was placed, the sniper committed
last. -/
def soldItem : Sys := { midItem with firstBidPlaced := true, lastBidder := 2 }

/-- C5 witness: a two-item run (one sold to the agent strategy, one timed
out) and the two recording paths at concrete states. -/
theorem c5_winner_stats_witness :
    (runStats [ItemResult.sold .AGENT, ItemResult.timedOutUnsold]).1.length = 2 ∧
    (runStats [ItemResult.sold .AGENT, ItemResult.timedOutUnsold]).2.total = 1 ∧
    ((fireTimeout midItem).winnersHist = midItem.winnersHist ++ [NONEcode] ∧
     (fireTimeout midItem).winnerStats = midItem.winnerStats) ∧
    ((fireItemClose soldItem).winnersHist = soldItem.winnersHist ++ [soldItem.lastBidder] ∧
     (fireItemClose soldItem).winnerStats
        = soldItem.winnerStats.bump (soldItem.lastBidder + 1)) :=
  ⟨(c5_winner_stats_classification [ItemResult.sold .AGENT, ItemResult.timedOutUnsold]
      midItem).1,
   (c5_winner_stats_classification [ItemResult.sold .AGENT, ItemResult.timedOutUnsold]
      midItem).2.1,
   (c5_winner_stats_classification [] midItem).2.2.1 rfl,
   (c5_winner_stats_classification [] soldItem).2.2.2 rfl⟩

/-- C5 counterexample: a complete run of `NUMBER_OF_ITEMS = 1` item in which
the single item is discarded unsold by the timeout.  The histogram gets its
one `None` record, but the per-strategy counters `winnerStats` (the array
over Agent, Ratchet, Sniper, None) sum to `0`, not to `NUMBER_OF_ITEMS = 1`:
the timeout's recording path never increments `winnerStats`. -/
theorem c5_unsold_not_counted_counterexample :
    (runStats [ItemResult.timedOutUnsold]).1.length = 1 ∧
    (runStats [ItemResult.timedOutUnsold]).2.total = 0 ∧
    (fireTimeout midItem).winnerStats.total = 0 ∧
    (fireTimeout midItem).winnersHist.length = 1 := by decide

/-- C6 (amended): a sniper is single-shot.  Its decision time is
`max(endTime − snipeDelay, startTime) + reaction + latency` (it sleeps until
the fire time if that is still ahead, then adds the jitters).  It enqueues
itself — exactly once, at that decision time — precisely when the decision
time is *not after* `endTime` (the source tests `Time > roundEndTime`, so at
`Time = endTime` it still proceeds, unlike the claim's strict "still
before") and `currentPrice` plus the minimal increment is at most its
valuation; in every other case it terminates immediately.  Its lifetime
enqueue list never holds more than one element: there is no loop back. -/
theorem c6_sniper_single_shot (i : SniperInput) :
    sniperEnqueues i =
      (if sniperDecisionTime i ≤ i.roundEndTime ∧
          i.currentPrice + i.currentPrice * (1 / 100) ≤ i.valuation
        then [sniperDecisionTime i] else []) ∧
    (sniperEnqueues i).length ≤ 1 := by
  have hmax : (if i.startTime < i.roundEndTime - i.snipeDelay
        then i.roundEndTime - i.snipeDelay else i.startTime)
      = max (i.roundEndTime - i.snipeDelay) i.startTime := by
    rcases lt_trichotomy i.startTime (i.roundEndTime - i.snipeDelay) with h | h | h
    · rw [if_pos h, max_eq_left h.le]
    · rw [if_neg (by rw [h]; exact lt_irrefl _), h, max_self]
    · rw [if_neg (not_lt.mpr h.le), max_eq_right h.le]
  have hchar : sniperBehavior i =
      (if i.roundEndTime < sniperDecisionTime i
        then .terminated (sniperDecisionTime i)
        else if i.currentPrice + i.currentPrice * (1 / 100) ≤ i.valuation
          then .enqueued (sniperDecisionTime i)
          else .terminated (sniperDecisionTime i)) := by
    simp only [sniperBehavior, sniperDecisionTime, minimalIncrementQ, hmax]
  constructor
  · unfold sniperEnqueues
    rw [hchar]
    by_cases h1 : i.roundEndTime < sniperDecisionTime i
    · rw [if_pos h1, if_neg (fun hc => absurd hc.1 (not_le.mpr h1))]
    · by_cases h2 : i.currentPrice + i.currentPrice * (1 / 100) ≤ i.valuation
      · rw [if_neg h1, if_pos h2, if_pos ⟨not_lt.mp h1, h2⟩]
      · rw [if_neg h1, if_neg h2, if_neg (fun hc => h2 hc.2)]
  · unfold sniperEnqueues
    cases sniperBehavior i <;> simp

/-- C6 counterexample: a sniper whose decision time lands exactly on
`endTime` (start 0, snipe delay 1, so fire time 59; reaction 1/2 and latency
1/2 bring it to 60 = endTime) with an affordable price (100 + 1 increment ≤
valuation 200).  The claim's strict "still before endTime" demands immediate
termination; the source tests `Time > roundEndTime`, proceeds, and
enqueues. -/
theorem c6_boundary_counterexample :
    sniperBehavior ⟨0, 1, 1/2, 1/2, 100, 200, 60⟩ = .enqueued 60 ∧
    sniperDecisionTime ⟨0, 1, 1/2, 1/2, 100, 200, 60⟩
      = (⟨0, 1, 1/2, 1/2, 100, 200, 60⟩ : SniperInput).roundEndTime := by
  constructor
  · unfold sniperBehavior minimalIncrementQ
    norm_num
  · unfold sniperDecisionTime
    norm_num

/-- C7: determinism.  A run is a function of the random tape (the
seed-determined stream of draws) and the parameters: the scheduler's pick
order (time, then priority, then insertion) is antisymmetric, so the next
entry is unique, every event is a pure state transformer, and therefore two
runs of the same length from the same seed and parameters are equal as
states — in particular they produce identical sequences of
`(itemNumber, time, price)` bid records. -/
theorem c7_run_deterministic (tape : List ℚ) (p : Params) (n : ℕ) (s₁ s₂ : Sys)
    (h₁ : StepN n (initSys tape p) s₁) (h₂ : StepN n (initSys tape p) s₂) :
    s₁.bidLog = s₂.bidLog ∧ s₁ = s₂ := by
  have h := stepN_deterministic h₁ h₂
  exact ⟨by rw [h], h⟩

/-- C7 witness: two one-step runs from the default start. -/
theorem c7_run_deterministic_witness :
    (fireEntry ⟨0, 0, 0, .auctionResume⟩ (initSys [] pDefault)).bidLog
      = (fireEntry ⟨0, 0, 0, .auctionResume⟩ (initSys [] pDefault)).bidLog ∧
    fireEntry ⟨0, 0, 0, .auctionResume⟩ (initSys [] pDefault)
      = fireEntry ⟨0, 0, 0, .auctionResume⟩ (initSys [] pDefault) :=
  c7_run_deterministic [] pDefault 1 _ _
    (StepN.succ (Step.fire (initSys [] pDefault) ⟨0, 0, 0, .auctionResume⟩ (by decide))
      (StepN.zero _))
    (StepN.succ (Step.fire (initSys [] pDefault) ⟨0, 0, 0, .auctionResume⟩ (by decide))
      (StepN.zero _))

/-- C8 (amended): `main` rejects only syntactically unrecognized command
lines — an unknown token, or a recognized flag with no following value —
with the usage message and `EXIT_FAILURE`.  The numeric values are never
range-checked: any parsed item count or duration (non-positive included) is
accepted and the simulation is started; with a non-positive item count the
auction loop simply opens no item (the `Auction` process's `while` guard
fails at once), but the run is still performed. -/
theorem c8_no_range_validation :
    (∀ (v : String) (n : Int) (c : Params), stoi v = some n →
      parseLoop ["-i", v] c = .ok { c with numberOfItems := n }) ∧
    (∀ (v : String) (n : Int) (c : Params), stoi v = some n →
      parseLoop ["-d", v] c = .ok { c with singleItemDuration := n }) ∧
    (∀ (a : String) (rest : List String) (c : Params),
      a ≠ "-i" → a ≠ "-b" → a ≠ "-d" → a ≠ "-t" →
      parseLoop (a :: rest) c = .usage) ∧
    (∀ c : Params, parseLoop ["-i"] c = .usage) ∧
    (∀ (tape : List ℚ) (p : Params), p.numberOfItems ≤ 0 →
      fireAuctionResume (initSys tape p) = initSys tape p) := by
  refine ⟨?_, ?_, ?_, ?_, ?_⟩
  · intro v n c h
    simp [parseLoop, h]
  · intro v n c h
    simp [parseLoop, h]
  · intro a rest c h1 h2 h3 h4
    rw [parseLoop.eq_def]
    simp [h1, h2, h3, h4]
  · intro c
    simp [parseLoop]
  · intro tape p h
    have hn : ¬ ((initSys tape p).itemNumber < (initSys tape p).params.numberOfItems) := by
      simp only [initSys]
      omega
    unfold fireAuctionResume
    rw [if_neg hn]

/-- C8 witness: `-i -5` parses and the run with `-5` items opens no item. -/
theorem c8_no_range_validation_witness :
    parseLoop ["-i", "-5"] defaultArgs = .ok ⟨-5, 70, 60, 30⟩ ∧
    parseLoop ["-x"] defaultArgs = .usage ∧
    parseLoop ["-i"] defaultArgs = .usage ∧
    fireAuctionResume (initSys [] ⟨-5, 70, 60, 30⟩) = initSys [] ⟨-5, 70, 60, 30⟩ :=
  ⟨c8_no_range_validation.1 "-5" (-5) defaultArgs (by decide),
   c8_no_range_validation.2.2.1 "-x" [] defaultArgs (by decide) (by decide) (by decide)
     (by decide),
   c8_no_range_validation.2.2.2.1 defaultArgs,
   c8_no_range_validation.2.2.2.2 [] ⟨-5, 70, 60, 30⟩ (by norm_num)⟩

/-- C8 counterexample: the configuration `-i -5` (non-positive item count)
is not rejected: `main` parses it successfully, prints no usage message,
and performs the run with `NUMBER_OF_ITEMS = -5` (and the other parameters
at their defaults). -/
theorem c8_negative_items_accepted_counterexample :
    mainProgram ["-i", "-5"] = .run ⟨-5, 70, 60, 30⟩ ∧
    mainProgram ["-i", "-5"] ≠ .usageFailure := by
  constructor <;> decide

/-- C9: every committed bid, whichever strategy's poller commits it, changes
`currentPrice` by exactly `currentPrice * 0.01` — the rate `0.01` is the one
constant of `minimalIncrement()`, shared by all three pollers — and
therefore `n` consecutive commits multiply the starting price by
`(101/100)^n`. -/
theorem c9_increment_compounding (strat : Strategy) (s : Sys) (p : ℚ) (n : ℕ)
    (htime : s.time < s.itemEndTime) (hq : queueOf strat s ≠ [])
    (hf : s.facility = none) :
    (pollerTick strat s).currentPrice - s.currentPrice = s.currentPrice * (1 / 100) ∧
    commitQ^[n] p = p * (101 / 100) ^ n := by
  constructor
  · have hred : pollerTick strat s = commitBlock strat s := by
      unfold pollerTick
      rw [if_neg (not_le.mpr htime), if_pos ⟨hq, hf⟩]
    rw [hred, commitBlock_currentPrice]
    unfold commitQ minimalIncrementQ
    ring
  · induction n with
    | zero => simp
    | succ n ih =>
      rw [Function.iterate_succ_apply', ih]
      unfold commitQ minimalIncrementQ
      ring

/-- C9 witness: a committing ratchet tick at price 100, and two iterated
commits from 100. -/
theorem c9_increment_compounding_witness :
    (pollerTick .RATCHET midRatchet).currentPrice - midRatchet.currentPrice
      = midRatchet.currentPrice * (1 / 100) ∧
    commitQ^[2] (100 : ℚ) = 100 * (101 / 100) ^ 2 :=
  c9_increment_compounding .RATCHET midRatchet 100 2 (by decide) (by decide) rfl

/-- C10 (amended): immediately after a commit's wake-up phase
(`returnFromQueues`) returns — and hence at the end of a committing tick —
all three DecisionQueues are empty, so no bidder remains queued across a
commit.  `returnFromQueues` itself activates exactly once every bidder still
queued when it runs (activation counts equal prior queue-entry counts).  But
over the whole tick, the activation counts match the commit-time queue
contents only for agent and ratchet commits: on a *sniper* commit the head
of the sniper queue has already been dequeued — destructively, by the
logging `printf`'s `SniperDecidedToBid.GetFirst()` (source line 478) —
before the wake-up, so that bidder is removed but reactivated zero times,
not once. -/
theorem c10_wakeup_empties_queues (s : Sys) (strat : Strategy)
    (htime : s.time < s.itemEndTime) (hq : queueOf strat s ≠ [])
    (hf : s.facility = none) :
    (returnFromQueues s).agentQueue = [] ∧
    (returnFromQueues s).ratchetQueue = [] ∧
    (returnFromQueues s).sniperQueue = [] ∧
    (∀ pid : ℕ, (returnFromQueues s).activated.count pid
        = s.activated.count pid
          + (s.agentQueue.count pid + s.ratchetQueue.count pid
              + s.sniperQueue.count pid)) ∧
    (pollerTick strat s).agentQueue = [] ∧
    (pollerTick strat s).ratchetQueue = [] ∧
    (pollerTick strat s).sniperQueue = [] ∧
    (∀ pid : ℕ, (pollerTick strat s).activated.count pid
        = s.activated.count pid
          + (s.agentQueue.count pid + s.ratchetQueue.count pid
              + (if strat = Strategy.SNIPER then s.sniperQueue.tail.count pid
                 else s.sniperQueue.count pid))) := by
  have hred : pollerTick strat s = commitBlock strat s := by
    unfold pollerTick
    rw [if_neg (not_le.mpr htime), if_pos ⟨hq, hf⟩]
  refine ⟨rfl, rfl, rfl, ?_, ?_, ?_, ?_, ?_⟩
  · intro pid
    simp [returnFromQueues, List.count_append]
    omega
  · rw [hred]; cases strat <;> rfl
  · rw [hred]; cases strat <;> rfl
  · rw [hred]; cases strat <;> rfl
  · intro pid
    rw [hred]
    cases strat <;>
      simp [commitBlock, releaseF, returnFromQueues, setLastBidder, printBid, logBid,
        LOGGING, commitPrice, seizeF, List.count_append] <;>
      omega

/-- C10 witness: the wake-up at `midItem` (one agent queued) and the
committing agent tick there, with the activation count of bidder 1. -/
theorem c10_wakeup_empties_queues_witness :
    (returnFromQueues midItem).agentQueue = [] ∧
    (returnFromQueues midItem).ratchetQueue = [] ∧
    (returnFromQueues midItem).sniperQueue = [] ∧
    (returnFromQueues midItem).activated.count 1
      = midItem.activated.count 1
        + (midItem.agentQueue.count 1 + midItem.ratchetQueue.count 1
            + midItem.sniperQueue.count 1) ∧
    (pollerTick .AGENT midItem).agentQueue = [] ∧
    (pollerTick .AGENT midItem).ratchetQueue = [] ∧
    (pollerTick .AGENT midItem).sniperQueue = [] ∧
    (pollerTick .AGENT midItem).activated.count 1
      = midItem.activated.count 1
        + (midItem.agentQueue.count 1 + midItem.ratchetQueue.count 1
            + (if Strategy.AGENT = Strategy.SNIPER then midItem.sniperQueue.tail.count 1
               else midItem.sniperQueue.count 1)) := by
  have h := c10_wakeup_empties_queues midItem .AGENT (by decide) (by decide) rfl
  exact ⟨h.1, h.2.1, h.2.2.1, h.2.2.2.1 1, h.2.2.2.2.1, h.2.2.2.2.2.1,
    h.2.2.2.2.2.2.1, h.2.2.2.2.2.2.2 1⟩

/-- C10 counterexample: a committing sniper tick at `midSniper`, where
bidder 5 is the (only) queued sniper at commit time.  After the tick all
queues are empty, but bidder 5 — queued once at commit time — received zero
activations: the poller's `printf` popped it from the queue before
`returnFromQueues` ran, so "every bidder that was queued at commit time has
been ... reactivated exactly once" fails on the source. -/
theorem c10_sniper_head_lost_counterexample :
    midSniper.sniperQueue.count 5 = 1 ∧
    (pollerTick .SNIPER midSniper).firstBidPlaced = true ∧
    (pollerTick .SNIPER midSniper).agentQueue = [] ∧
    (pollerTick .SNIPER midSniper).ratchetQueue = [] ∧
    (pollerTick .SNIPER midSniper).sniperQueue = [] ∧
    (pollerTick .SNIPER midSniper).activated.count 5 = 0 := by decide

end Auction
